import Mathlib

/-!
Verification of the MetaData pipeline (filesystem scanner + CKAN catalog
synchronizer) against its natural-language specification.

Paths are modelled as lists of components below an abstract absolute root
(`["tmp","out"]` stands for `/tmp/out`); machine strings are Lean `String`s.
Each definition is a shallow embedding of one function of the source tree
(`extract_transform.py`, `load_publish.py`, `src/python/upload_ckan.py`),
named after the function it embeds, with the source location in its doc
comment.
-/

namespace MetaData

/-! ## Path model (extract_transform.py) -/

/-- Render a component list as a POSIX absolute path string, the way
`str(Path(...))` renders a resolved absolute path. -/
def pathStr (p : List String) : String :=
  "/" ++ String.intercalate "/" p

/-- Lexical normalization performed by `Path.resolve()` on a path that needs
no symlink handling: `.` and empty components vanish, `..` pops the previous
component (and is a no-op at the root). -/
def resolveComps (p : List String) : List String :=
  p.foldl
    (fun acc c =>
      if c = "." ∨ c = "" then acc
      else if c = ".." then acc.dropLast
      else acc ++ [c])
    []

/-- Componentwise directory containment: `t` lies under directory `d`.
This is the relation the spec words "falls outside `destinationDir`" refer
to (negated). -/
def underDir (d t : List String) : Bool :=
  List.isPrefixOf d t

/-- Python `str.startswith`, spelled over the character lists so that the
kernel can evaluate it. -/
def pyStartsWith (s pre : String) : Bool :=
  List.isPrefixOf pre.data s.data

/-- The safety test of `MetadataScanner._extract_zip_recursive`
(extract_transform.py lines 292-295): the member is extracted exactly when
`str((extract_dir / member).resolve()).startswith(str(extract_dir.resolve()))`.
The member filename is given as its component list. -/
def memberIsSafe (d m : List String) : Bool :=
  pyStartsWith (pathStr (resolveComps (d ++ m))) (pathStr (resolveComps d))

/-- Resolved target path of one archive member,
`(extract_dir / member.filename).resolve()` of line 292. -/
def memberTarget (d m : List String) : List String :=
  resolveComps (d ++ m)

/-- Targets accepted by the member loop of `_extract_zip_recursive`
(lines 290-300): members failing `memberIsSafe` are skipped (logged) and the
loop continues; the rest are handed to `zf.extract`. -/
def extractedMemberTargets (d : List String) (members : List (List String)) :
    List (List String) :=
  (members.filter (memberIsSafe d)).map (memberTarget d)

/-! ## Relative-path composition (extract_transform.py) -/

/-- `str(item_path.relative_to(base))` of `_process_extracted_item`
(line 324): defined when `base` is a componentwise prefix, joining the rest
with `/` (an exact match renders as `.`). -/
def relativeToStr (base p : List String) : Option String :=
  if List.isPrefixOf base p then
    some (match p.drop base.length with
          | [] => "."
          | rest => String.intercalate "/" rest)
  else none

/-- `combined_rel = f"{zip_item.relative_path}/{rel_in_zip}"` of
`_process_extracted_item` (lines 324-325). -/
def combinedRelPath (zipRel : String) (base itemPath : List String) :
    Option String :=
  (relativeToStr base itemPath).map (fun r => zipRel ++ "/" ++ r)

/-! ## Slug generation (load_publish.py / extract_transform.py) -/

/-- Python `str.lower` on one ASCII character. -/
def pyLowerChar (c : Char) : Char :=
  if c.isUpper then Char.ofNat (c.toNat + 32) else c

/-- Python `str.strip()`: drop whitespace from both ends. -/
def pyStrip (cs : List Char) : List Char :=
  ((cs.dropWhile Char.isWhitespace).reverse.dropWhile Char.isWhitespace).reverse

/-- Character class of the regex `[\s\._]+` in `_generate_slug`. -/
def isSpaceDotUnderscore (c : Char) : Bool :=
  c.isWhitespace || c = '.' || c = '_'

/-- Python `\w` over ASCII input: alphanumeric or underscore. -/
def isWordChar (c : Char) : Bool :=
  c.isAlphanum || c = '_'

/-- One pass of `re.sub(r'[\s\._]+', '-', s)`: a maximal run of whitespace,
dots or underscores becomes a single dash.  The flag records whether the
previous character belonged to such a run. -/
def dashWsRuns : Bool → List Char → List Char
  | _, [] => []
  | inRun, c :: cs =>
    if isSpaceDotUnderscore c then
      if inRun then dashWsRuns true cs else '-' :: dashWsRuns true cs
    else c :: dashWsRuns false cs

/-- `re.sub(r'-{2,}', '-', s)`: collapse every run of dashes to one dash. -/
def collapseDashes : Bool → List Char → List Char
  | _, [] => []
  | prevDash, c :: cs =>
    if c = '-' then
      if prevDash then collapseDashes true cs else '-' :: collapseDashes true cs
    else c :: collapseDashes false cs

/-- Python `s.strip('-')`. -/
def stripDashes (cs : List Char) : List Char :=
  ((cs.dropWhile (fun c => c = '-')).reverse.dropWhile (fun c => c = '-')).reverse

/-- `CkanUploader._generate_slug` (load_publish.py lines 256-259):
lowercase, strip, dash the `[\s._]` runs, drop non-word non-dash characters,
collapse dash runs, strip dashes, truncate to `maxLength`, with `"unnamed"`
for an empty outcome.  No suffix of any kind is appended on truncation.
(`CkanTransformer._slugify` is NOT equivalent and is modelled separately
as `transformerSlugify`.) -/
def generateSlug (name : String) (maxLength : Nat) : String :=
  if name = "" then "unnamed"
  else
    let cs := pyStrip (name.data.map pyLowerChar)
    let cs := dashWsRuns false cs
    let cs := cs.filter (fun c => isWordChar c || c = '-')
    let cs := collapseDashes false cs
    let cs := stripDashes cs
    let s := String.mk (cs.take maxLength)
    if s = "" then "unnamed" else s

/-- `CkanTransformer._slugify` (extract_transform.py lines 479-480).  Its
body is one physical line, so the entire semicolon-joined suite —
`return "unnamed"; s=str(t).lower()...; return s or "unnamed"` — is the
body of `if not t:`.  An empty name hits the leading `return "unnamed"`;
every non-empty name skips the whole suite and the function falls through,
returning Python's implicit `None` (modelled as `none`).  The `ml`
parameter is never reached. -/
def transformerSlugify (t : String) (ml : Nat) : Option String :=
  if t = "" then some "unnamed" else none

/-! ## Retry wrapper (load_publish.py, `CkanUploader._execute_action`) -/

/-- Outcome of one remote CKAN call, the exception taxonomy of
load_publish.py lines 90-101: success, `NotFound`, `NotAuthorized`,
`ValidationError`, `CKANAPIError`, or any other exception. -/
inductive RemoteOutcome where
  | success (v : Nat)
  | notFound
  | notAuthorized
  | validationFailure
  | apiError
  | otherError
deriving DecidableEq

/-- What `_execute_action` does overall: return a value, return `None`
(for `NotFound`), or raise one of the exception kinds. -/
inductive ExecResult where
  | value (v : Nat)
  | noneResult
  | raisedAuth
  | raisedValidation
  | raisedApi
  | raisedOther
deriving DecidableEq

/-- Failures that fall into the retry branches of `_execute_action`
(lines 96-101): `CKANAPIError` and unexpected exceptions. -/
def retryable : RemoteOutcome → Bool
  | .apiError => true
  | .otherError => true
  | _ => false

/-- The exception re-raised when the final attempt fails with this outcome
(`raise last_exception`, line 106). -/
def raiseOf : RemoteOutcome → ExecResult
  | .otherError => .raisedOther
  | _ => .raisedApi

/-- The `for attempt in range(retries + 1)` loop of `_execute_action`
(lines 90-107).  `behavior i` is the remote outcome of the `i`-th call;
`remaining` counts the attempts still allowed after the current one.
Returns the result together with the number of calls performed. -/
def execLoop (behavior : Nat → RemoteOutcome) : Nat → Nat → ExecResult × Nat
  | attemptIdx, 0 =>
    match behavior attemptIdx with
    | .success v => (.value v, 1)
    | .notFound => (.noneResult, 1)
    | .notAuthorized => (.raisedAuth, 1)
    | .validationFailure => (.raisedValidation, 1)
    | .apiError => (.raisedApi, 1)
    | .otherError => (.raisedOther, 1)
  | attemptIdx, r + 1 =>
    match behavior attemptIdx with
    | .success v => (.value v, 1)
    | .notFound => (.noneResult, 1)
    | .notAuthorized => (.raisedAuth, 1)
    | .validationFailure => (.raisedValidation, 1)
    | _ =>
      let rest := execLoop behavior (attemptIdx + 1) r
      (rest.1, rest.2 + 1)

/-- `CkanUploader._execute_action` with a given retry budget (the fixed
`time.sleep(delay)` between attempts has no observable effect here). -/
def executeAction (behavior : Nat → RemoteOutcome) (retries : Nat) :
    ExecResult × Nat :=
  execLoop behavior 0 retries

/-! ## Resource upsert (load_publish.py, `CkanUploader`) -/

/-- A resource record held by the remote catalog: its id and its fields
(the `hash` lives among the fields, as in a CKAN resource dict). -/
structure RemoteResource where
  resId : String
  fields : List (String × String)
deriving DecidableEq

/-- Keys skipped by the metadata comparison loop of
`_resource_needs_update` (line 192): `id`, `package_id`, `upload` and
anything starting with an underscore. -/
def isInternalKey (k : String) : Bool :=
  k = "id" || k = "package_id" || k = "upload" || pyStartsWith k "_"

/-- Python truthiness of an optional string (`if current_hash:`). -/
def truthyOpt : Option String → Bool
  | none => false
  | some s => !(s = "")

/-- `CkanUploader._resource_needs_update` (load_publish.py lines 177-202),
with the `resource_show` result passed in as `existing`:
absent resource means update; a truthy local hash differing from the stored
`hash` field means update; otherwise any non-internal payload field whose
remote value differs means update. -/
def resourceNeedsUpdate (existing : Option RemoteResource)
    (currentHash : Option String) (payload : List (String × String)) : Bool :=
  match existing with
  | none => true
  | some res =>
    if truthyOpt currentHash
        && !(List.lookup "hash" res.fields == currentHash) then true
    else
      payload.any (fun kv =>
        !(isInternalKey kv.1)
          && !(List.lookup kv.1 res.fields == some kv.2))

/-- Which remote mutation `upsert_resource` performs. -/
inductive ResAction where
  | noop
  | create
  | update
deriving DecidableEq

/-- The decision core of `CkanUploader.upsert_resource` (load_publish.py
lines 218-246), after the payload-name / file-exists / path-already-processed
guards: `existing` is the `resource_search` hit for `(dataset, name)`;
`callResult` is what the remote returns for a create/update call.  A found
resource that needs no update is returned unchanged with no remote
mutation. -/
def upsertResource (existing : Option RemoteResource)
    (currentHash : Option String) (payload : List (String × String))
    (callResult : Option RemoteResource) : ResAction × Option RemoteResource :=
  match existing with
  | some res =>
    if resourceNeedsUpdate (some res) currentHash payload then
      (.update, callResult)
    else
      (.noop, some res)
  | none => (.create, callResult)

/-! ## Dataset resolution (load_publish.py, `CkanUploader.get_or_create_dataset`) -/

/-- A dataset record held by the remote catalog. -/
structure RemoteDataset where
  dsId : String
  ownerOrg : Option String
deriving DecidableEq

/-- Remote mutations `get_or_create_dataset` can perform. -/
inductive DsAction where
  | update
  | create
deriving DecidableEq

/-- `CkanUploader.get_or_create_dataset` (load_publish.py lines 134-175)
on a cache miss, with the `package_show` result passed in as `existing`:
returns the resolved id (or `none`) together with the remote mutations
performed.  `updateResult` / `createResult` stand for the id coming back
from `package_update` / `package_create` (`none` when the call fails or
returns no id).  On an owning-organization mismatch against a truthy
`orgId` the dataset is left untouched and resolution fails. -/
def getOrCreateDataset (existing : Option RemoteDataset)
    (orgId : Option String) (hasApiKey : Bool)
    (updateResult createResult : Option String) :
    Option String × List DsAction :=
  match existing with
  | some ds =>
    if truthyOpt orgId && !(ds.ownerOrg == orgId) then (none, [])
    else (updateResult, [.update])
  | none =>
    if hasApiKey then (createResult, [.create]) else (none, [])

/-! ## Metadata collection (extract_transform.py, `FileSystemItem.get_metadata`) -/

/-- Accessibility of a filesystem path at metadata time: vanished
(`FileNotFoundError`), unreadable (`PermissionError` from the
`os.access` check), or readable. -/
inductive FsStatus where
  | missing
  | unreadable
  | readable
deriving DecidableEq

/-- One produced metadata record: its field mapping and the final
`_extraction_error` value. -/
structure MetaRecord where
  fields : List (String × String)
  extractionError : Option String
deriving DecidableEq

/-- `FileSystemItem.get_metadata` (extract_transform.py lines 96-138).
A vanished path returns `None` (line 130); an unreadable path is caught at
line 131, yielding a record whose error is `"Permission denied"` and whose
specific fields stay empty; otherwise `specificMeta` is the dict returned
by `_extract_specific_metadata`, whose `_extraction_error` key is popped
into the record's error slot (lines 122, 136). -/
def getMetadata (status : FsStatus) (specificMeta : List (String × String)) :
    Option MetaRecord :=
  match status with
  | .missing => none
  | .unreadable => some ⟨[], some "Permission denied"⟩
  | .readable =>
    some ⟨specificMeta.filter (fun kv => !(kv.1 == "_extraction_error")),
          List.lookup "_extraction_error" specificMeta⟩

/-! ## Recursive archive extraction (extract_transform.py,
`MetadataScanner._extract_zip_recursive`, lines 281-313)

Archive contents are abstracted to what drives the recursion: `content a`
lists the ids of the archives nested inside archive `a` (non-archive
members never recurse).  Extracting archive `a` into `extractDir`
materializes its `i`-th nested archive as a fresh file `extractDir/zip<i>`
and recurses into the fresh directory `extractDir/nested<i>` — mirroring
how the code finds freshly written `*.zip` files under `extract_dir` via
`rglob` and extracts each into `extract_dir/<stem>_nested_<name>`.  The
`processed` set of resolved archive paths is consulted on entry (line 284)
and before each nested recursion (line 306), and each recursive call
receives `processed.copy()` (line 307), so a child's additions never flow
back — modelled by passing the same list unchanged to every child.  `fuel`
bounds the recursion depth; `none` means the bound was hit, i.e. the real
recursion would still be running.  The returned list collects the archive
paths actually extracted, in order. -/

/-- One step over the nested archives found in the extraction directory:
`go` is the recursive call at one fuel less. -/
def extractChildren
    (go : Nat → List String → List String → List (List String) →
      Option (List (List String))) :
    List (Nat × Nat) → List String → List (List String) →
      Option (List (List String))
  | [], _, _ => some []
  | (i, b) :: rest, d, proc =>
    let itemPath := d ++ ["zip" ++ toString i]
    let nestedDir := d ++ ["nested" ++ toString i]
    let here := if itemPath ∈ proc then some [] else go b itemPath nestedDir proc
    match here, extractChildren go rest d proc with
    | some xs, some ys => some (xs ++ ys)
    | _, _ => none

/-- `MetadataScanner._extract_zip_recursive` under the abstraction above:
an archive whose path is already in `processed` is not re-extracted
(line 284 returns immediately); otherwise its path is recorded, its members
are unpacked, and every nested archive not yet in the set is recursed
into. -/
def extractZipRec (content : Nat → List Nat) :
    Nat → Nat → List String → List String → List (List String) →
      Option (List (List String))
  | fuel, a, p, d, proc =>
    if p ∈ proc then some []
    else
      match fuel with
      | 0 => none
      | Nat.succ f =>
        (extractChildren (extractZipRec content f)
            ((content a).enum) d (p :: proc)).map (fun xs => p :: xs)

/-- An archive table where archive `0` contains a copy of itself — the
shape of a self-reproducing ("quine") zip: every extracted copy again
contains the same archive. -/
def quineContent : Nat → List Nat := fun _ => [0]

/-- An archive table with one level of nesting and nothing below it:
archive `0` contains archive `1`, which contains no archive. -/
def oneNestedContent : Nat → List Nat := fun a => if a = 0 then [1] else []

/-- The real recursion never finishes on this input: every finite recursion
depth is exhausted. -/
def extractionExhaustsAllFuel (content : Nat → List Nat) (a : Nat)
    (p d : List String) : Prop :=
  ∀ fuel, extractZipRec content fuel a p d [] = none

/-! ## Full synchronization run (load_publish.py, `CkanUploader.process_list`,
lines 305-354, with `get_or_create_organization` lines 111-132,
`get_or_create_dataset` lines 134-175 and `upsert_resource` lines 205-251)

The remote catalog state is read-only here: the run of interest is the
second run over an unchanged tree and unchanged remote state, where every
entity already exists and matches, so successful update calls return the
existing ids.  Created ids are derived deterministically (`"org-" ++ name`,
`"ds-" ++ slug`); creation is assumed authorized (an api key is present),
which only matters on branches the theorems prove unreachable. -/

/-- Remote catalog state. -/
structure Remote where
  orgs : List (String × String)
  datasets : List (String × RemoteDataset)
  resources : List ((String × String) × RemoteResource)

/-- One prepared item of the metadata list, the `UploadInfo` of
`_prepare_upload_info` (lines 272-302): target organization name, dataset
slug, payloads, and for file items the resource name, local path and
hash. -/
structure Item where
  orgName : Option String
  dsSlug : String
  dsPayload : List (String × String)
  isFile : Bool
  resName : String
  resPayload : List (String × String)
  path : String
  fileHash : Option String

/-- The per-run caches of `CkanUploader.__init__` (lines 59-61):
organization name → outcome, dataset slug → outcome, and the set of file
paths already upserted this run. -/
structure Caches where
  orgCache : List (String × Option String)
  dsCache : List (String × Option String)
  processedPaths : List String

/-- Counters for the remote create/update calls a run performs. -/
structure Calls where
  orgCreates : Nat
  dsCreates : Nat
  dsUpdates : Nat
  resCreates : Nat
  resUpdates : Nat
deriving DecidableEq

/-- The run that makes no create/update call at all. -/
def Calls.zero : Calls := ⟨0, 0, 0, 0, 0⟩

/-- Componentwise sum of call counters. -/
def Calls.add (a b : Calls) : Calls :=
  ⟨a.orgCreates + b.orgCreates, a.dsCreates + b.dsCreates,
   a.dsUpdates + b.dsUpdates, a.resCreates + b.resCreates,
   a.resUpdates + b.resUpdates⟩

/-- `CkanUploader.get_or_create_organization` (lines 111-132): consult the
cache, else `organization_show`; when absent, `organization_create` (one
create call) and cache the fresh id. -/
def ensureOrganization (remote : Remote) (st : Caches) (name : String) :
    Option String × Caches × Calls :=
  match List.lookup name st.orgCache with
  | some cached => (cached, st, Calls.zero)
  | none =>
    match List.lookup name remote.orgs with
    | some oid =>
      (some oid, { st with orgCache := (name, some oid) :: st.orgCache },
       Calls.zero)
    | none =>
      (some ("org-" ++ name),
       { st with orgCache := (name, some ("org-" ++ name)) :: st.orgCache },
       { Calls.zero with orgCreates := 1 })

/-- `CkanUploader.get_or_create_dataset` (lines 134-175): consult the cache,
else `package_show`; a found dataset owned by a different truthy `orgId` is
left untouched and cached as unresolved; a found matching dataset is
updated (`package_update`, one update call); an absent dataset is created
(`package_create`, one create call). -/
def ensureDataset (remote : Remote) (st : Caches) (slug : String)
    (orgId : Option String) : Option String × Caches × Calls :=
  match List.lookup slug st.dsCache with
  | some cached => (cached, st, Calls.zero)
  | none =>
    match List.lookup slug remote.datasets with
    | some ds =>
      if truthyOpt orgId && !(ds.ownerOrg == orgId) then
        (none, { st with dsCache := (slug, none) :: st.dsCache }, Calls.zero)
      else
        (some ds.dsId,
         { st with dsCache := (slug, some ds.dsId) :: st.dsCache },
         { Calls.zero with dsUpdates := 1 })
    | none =>
      (some ("ds-" ++ slug),
       { st with dsCache := (slug, some ("ds-" ++ slug)) :: st.dsCache },
       { Calls.zero with dsCreates := 1 })

/-- The resource leg of `process_list` for a file item (lines 341-349),
i.e. `upsert_resource`: skip a path already processed this run; else look
the resource up by `(dataset id, name)` and create, update or leave it
alone as `_resource_needs_update` dictates. -/
def upsertResourceRun (remote : Remote) (st : Caches) (dsId : String)
    (it : Item) : Caches × Calls :=
  if it.path ∈ st.processedPaths then (st, Calls.zero)
  else
    match List.lookup (dsId, it.resName) remote.resources with
    | some res =>
      if resourceNeedsUpdate (some res) it.fileHash it.resPayload then
        ({ st with processedPaths := it.path :: st.processedPaths },
         { Calls.zero with resUpdates := 1 })
      else
        ({ st with processedPaths := it.path :: st.processedPaths },
         Calls.zero)
    | none =>
      ({ st with processedPaths := it.path :: st.processedPaths },
       { Calls.zero with resCreates := 1 })

/-- The organization leg of one `process_list` iteration (lines 324-331):
only a truthy organization name triggers `get_or_create_organization`. -/
def resolveOrgStep (remote : Remote) (st : Caches) (it : Item) :
    Option String × Caches × Calls :=
  match it.orgName with
  | some o => if o = "" then (none, st, Calls.zero)
              else ensureOrganization remote st o
  | none => (none, st, Calls.zero)

/-- The resource leg of one `process_list` iteration (lines 335-349): an
unresolved dataset skips the resource, a directory item has none, a file
item is upserted. -/
def resourceStep (remote : Remote) (st : Caches) (dsRes : Option String)
    (it : Item) : Caches × Calls :=
  match dsRes with
  | none => (st, Calls.zero)
  | some dsId =>
    if it.isFile then upsertResourceRun remote st dsId it
    else (st, Calls.zero)

/-- One iteration of the `process_list` loop (lines 313-351): resolve the
organization when a truthy name is present, resolve the dataset, and for
file items with a resolved dataset upsert the resource. -/
def processItem (remote : Remote) (st : Caches) (it : Item) :
    Caches × Calls :=
  let orgStep := resolveOrgStep remote st it
  let dsStep := ensureDataset remote orgStep.2.1 it.dsSlug orgStep.1
  let resStep := resourceStep remote dsStep.2.1 dsStep.1 it
  (resStep.1, Calls.add (Calls.add orgStep.2.2 dsStep.2.2) resStep.2)

/-- `CkanUploader.process_list` (lines 305-354): fold the loop over the
prepared items, starting from the empty caches of a fresh `CkanUploader`,
accumulating the remote calls made. -/
def processList (remote : Remote) (items : List Item) : Caches × Calls :=
  items.foldl
    (fun acc it =>
      let step := processItem remote acc.1 it
      (step.1, Calls.add acc.2 step.2))
    (⟨[], [], []⟩, Calls.zero)

/-- The second-run premise for one item: its organization (when named)
exists remotely, its dataset slug exists remotely, and for file items the
resource named by the item exists under that dataset with matching hash
and payload fields (so `_resource_needs_update` reports no change). -/
def itemUnchanged (remote : Remote) (it : Item) : Prop :=
  (∀ o, it.orgName = some o → o ≠ "" → (List.lookup o remote.orgs).isSome)
  ∧ (List.lookup it.dsSlug remote.datasets).isSome
  ∧ (∀ ds, List.lookup it.dsSlug remote.datasets = some ds →
      it.isFile = true →
      ∃ res, List.lookup (ds.dsId, it.resName) remote.resources = some res
        ∧ resourceNeedsUpdate (some res) it.fileHash it.resPayload = false)

/-- Cache states reachable during a run against an unchanged remote: every
cached organization id and dataset id agrees with the remote state. -/
def cachesConsistent (remote : Remote) (st : Caches) : Prop :=
  (∀ n oid, (n, some oid) ∈ st.orgCache → List.lookup n remote.orgs = some oid)
  ∧ (∀ s did, (s, some did) ∈ st.dsCache →
      ∃ ds, List.lookup s remote.datasets = some ds ∧ ds.dsId = did)

/-- Runs whose only remote mutations are dataset updates: every create
counter and the resource-update counter is zero. -/
def onlyDsUpdates (c : Calls) : Prop :=
  c.orgCreates = 0 ∧ c.dsCreates = 0 ∧ c.resCreates = 0 ∧ c.resUpdates = 0

/-- A remote resource whose stored hash and fields match the local file of
`exampleItem`. -/
def exampleRres : RemoteResource :=
  ⟨"res-1", [("hash", "abc"), ("name", "file1.pdf")]⟩

/-- A remote dataset owned by organization `org-1`. -/
def exampleRds : RemoteDataset := ⟨"ds-1", some "org-1"⟩

/-- A remote catalog already holding everything `exampleItem` publishes. -/
def exampleRemote : Remote :=
  ⟨[("reports-org", "org-1")], [("folder-a", exampleRds)],
   [(("ds-1", "file1.pdf"), exampleRres)]⟩

/-- A prepared file item whose organization, dataset and resource all exist
unchanged in `exampleRemote` — the situation of a second pipeline run over
an untouched source tree. -/
def exampleItem : Item :=
  ⟨some "reports-org", "folder-a", [("title", "Folder A")], true,
   "file1.pdf", [("name", "file1.pdf")], "/scan/folder_a/file1.pdf",
   some "abc"⟩

/-- A 101-character name ending in `b`; its slug is cut at the 100-character
truncation boundary. -/
def longNameB : String := String.mk (List.replicate 100 'a' ++ ['b'])

/-- A 101-character name ending in `c`, distinct from `longNameB` but
agreeing with it on the first 100 characters. -/
def longNameC : String := String.mk (List.replicate 100 'a' ++ ['c'])

/-! # Theorems -/

/-! ## C1 — archive entry path-traversal defense -/

/-- C1 counterexample: the safety test of `_extract_zip_recursive` is a
plain string-prefix comparison, so the member `../outside/f.txt` of an
archive extracted into `/tmp/out` resolves to `/tmp/outside/f.txt` —
outside the destination directory — yet passes the test and is extracted
rather than skipped. -/
theorem extractZip_outside_member_not_skipped :
    memberIsSafe ["tmp", "out"] ["..", "outside", "f.txt"] = true
    ∧ underDir (resolveComps ["tmp", "out"])
        (memberTarget ["tmp", "out"] ["..", "outside", "f.txt"]) = false
    ∧ memberTarget ["tmp", "out"] ["..", "outside", "f.txt"]
        ∈ extractedMemberTargets ["tmp", "out"] [["..", "outside", "f.txt"]] := by
  decide

/-- C1 (amended): every entry the member loop of `_extract_zip_recursive`
accepts has a resolved target whose path string starts with the resolved
destination directory's path string (a condition weaker than directory
containment); an entry failing that test contributes no write, and the
remaining entries are still processed. -/
theorem extractZip_member_filter_spec (d : List String)
    (members : List (List String)) :
    (∀ t ∈ extractedMemberTargets d members,
      pyStartsWith (pathStr t) (pathStr (resolveComps d)) = true)
    ∧ (∀ m rest, memberIsSafe d m = false →
        extractedMemberTargets d (m :: rest) = extractedMemberTargets d rest)
    ∧ (∀ m rest, memberIsSafe d m = true →
        extractedMemberTargets d (m :: rest)
          = memberTarget d m :: extractedMemberTargets d rest) := by
  refine ⟨?_, ?_, ?_⟩
  · intro t ht
    simp only [extractedMemberTargets, List.mem_map, List.mem_filter] at ht
    obtain ⟨m, ⟨_, hsafe⟩, rfl⟩ := ht
    simpa [memberIsSafe, memberTarget] using hsafe
  · intro m rest h
    simp [extractedMemberTargets, h]
  · intro m rest h
    simp [extractedMemberTargets, h]

/-- C1 witness: with destination `/tmp/out`, the member `../../escape.txt`
resolves to `/escape.txt`, is skipped, and the following member `ok.txt`
is still extracted, to `/tmp/out/ok.txt`. -/
theorem extractZip_member_filter_spec_witness :
    pyStartsWith (pathStr (memberTarget ["tmp", "out"] ["ok.txt"]))
      (pathStr (resolveComps ["tmp", "out"])) = true
    ∧ extractedMemberTargets ["tmp", "out"]
        ([["..", "..", "escape.txt"]] ++ [["ok.txt"]])
      = extractedMemberTargets ["tmp", "out"] [["ok.txt"]] :=
  ⟨(extractZip_member_filter_spec ["tmp", "out"] [["ok.txt"]]).1 _ (by decide),
   (extractZip_member_filter_spec ["tmp", "out"] []).2.1
     ["..", "..", "escape.txt"] [["ok.txt"]] (by decide)⟩

/-! ## C7 — combined relative path of extracted items -/

/-- C7: for a file strictly inside the extraction tree of an archive,
`_process_extracted_item` composes the archive's relative path, a slash,
and the file's path inside the archive. -/
theorem combinedRelPath_append (zipRel : String) (base rest : List String)
    (h : rest ≠ []) :
    combinedRelPath zipRel base (base ++ rest)
      = some (zipRel ++ "/" ++ String.intercalate "/" rest) := by
  cases rest with
  | nil => exact absurd rfl h
  | cons c cs =>
    simp [combinedRelPath, relativeToStr, List.isPrefixOf_iff_prefix,
      List.prefix_append, List.drop_left]

/-- C7 witness: `inner/report.csv` inside the archive at relative path
`folder/data.zip` gets the combined relative path
`folder/data.zip/inner/report.csv`. -/
theorem combinedRelPath_append_witness :
    combinedRelPath "folder/data.zip" ["tmp", "x_contents"]
        (["tmp", "x_contents"] ++ ["inner", "report.csv"])
      = some "folder/data.zip/inner/report.csv" :=
  combinedRelPath_append "folder/data.zip" ["tmp", "x_contents"]
    ["inner", "report.csv"] (by decide)

/-! ## C8 — slug determinism and truncation -/

/-- C8 counterexample: two distinct 101-character names whose slugs agree
on the first 100 characters are both truncated to the same slug by
`_generate_slug` — no suffix is appended, so the produced slugs are not
distinct. -/
theorem generateSlug_truncation_collision :
    longNameB ≠ longNameC
    ∧ generateSlug longNameB 100 = generateSlug longNameC 100 := by
  decide

/-- C8 (amended): slug generation by `CkanUploader._generate_slug` is
deterministic — `"My File (v2).PDF"` always slugifies to
`"my-file-v2-pdf"` — but it plainly truncates at the length limit: both
long names collapse to the same 100-character slug with no distinguishing
suffix.  `CkanTransformer._slugify` is not an equivalent slugifier at
all: its one-line `if not t:` body makes it return `"unnamed"` for an
empty name and `None` for every non-empty name, so it too never produces
distinct suffixed slugs. -/
theorem generateSlug_deterministic_truncation :
    generateSlug "My File (v2).PDF" 100 = "my-file-v2-pdf"
    ∧ generateSlug longNameB 100 = String.mk (List.replicate 100 'a')
    ∧ generateSlug longNameC 100 = String.mk (List.replicate 100 'a')
    ∧ transformerSlugify "My File (v2).PDF" 100 = none
    ∧ transformerSlugify "" 100 = some "unnamed"
    ∧ transformerSlugify longNameB 100 = transformerSlugify longNameC 100 := by
  decide

/-! ## C9 — metadata collection failure routing -/

/-- C9 counterexample: an unreadable path does not abort metadata
collection — `get_metadata` catches the `PermissionError` and still
produces a record, with `"Permission denied"` in its error slot — so
"returns no record iff vanished or unreadable" fails on the unreadable
side. -/
theorem getMetadata_unreadable_returns_record :
    getMetadata .unreadable [("file_size", "10")] ≠ none
    ∧ getMetadata .unreadable [("file_size", "10")]
      = some ⟨[], some "Permission denied"⟩ := by
  decide

/-- C9 (amended): `get_metadata` returns no record exactly when the path
has vanished; an unreadable path yields a record carrying the error
`"Permission denied"`, and a format-extractor failure yields a record
carrying the extractor's error string, so the walk continues in both
cases. -/
theorem getMetadata_none_iff_missing (status : FsStatus)
    (specificMeta : List (String × String)) :
    (getMetadata status specificMeta = none ↔ status = .missing)
    ∧ (status = .unreadable →
        getMetadata status specificMeta
          = some ⟨[], some "Permission denied"⟩)
    ∧ (∀ e, status = .readable →
        List.lookup "_extraction_error" specificMeta = some e →
        ∃ r, getMetadata status specificMeta = some r
          ∧ r.extractionError = some e) := by
  cases status with
  | missing => simp [getMetadata]
  | unreadable => simp [getMetadata]
  | readable =>
    refine ⟨by simp [getMetadata], by simp, ?_⟩
    intro e _ he
    exact ⟨_, rfl, by simp [he]⟩

/-- C9 witness: a vanished path gives no record, an unreadable one gives
the permission-denied record. -/
theorem getMetadata_none_iff_missing_witness :
    getMetadata .missing [] = none
    ∧ getMetadata .unreadable []
      = some ⟨[], some "Permission denied"⟩ :=
  ⟨(getMetadata_none_iff_missing .missing []).1.mpr rfl,
   (getMetadata_none_iff_missing .unreadable []).2.1 rfl⟩

/-! ## C2 — cycle avoidance in recursive archive extraction -/

/-- Extraction of the self-reproducing archive runs out of any fuel: the
visited set only ever holds strictly shorter paths than the current
archive's, because every nested copy is materialized at a fresh, deeper
temp path, so the set never stops the recursion. -/
theorem quine_extract_noFuel (fuel : Nat) :
    ∀ (p d : List String) (proc : List (List String)),
      p ∉ proc → (∀ q ∈ proc, q.length ≤ d.length) → p.length ≤ d.length →
      extractZipRec quineContent fuel 0 p d proc = none := by
  induction fuel with
  | zero =>
    intro p d proc hp _ _
    simp [extractZipRec, hp]
  | succ f ih =>
    intro p d proc hp hq hpd
    have hlen : ∀ q ∈ p :: proc, q.length ≤ d.length := by
      intro q hq'
      rcases List.mem_cons.mp hq' with rfl | h
      · exact hpd
      · exact hq q h
    have hitem : (d ++ ["zip" ++ toString 0]) ∉ p :: proc := by
      intro hmem
      have := hlen _ hmem
      simp at this
    have hchild :
        extractZipRec quineContent f 0 (d ++ ["zip" ++ toString 0])
          (d ++ ["nested" ++ toString 0]) (p :: proc) = none := by
      refine ih _ _ _ hitem ?_ ?_
      · intro q hq'
        have := hlen q hq'
        simp
        omega
      · simp
    simp [extractZipRec, hp, quineContent, extractChildren, hitem, hchild]

/-- C2 counterexample: extracting an archive that contains a copy of
itself never finishes — each level materializes the copy at a fresh path
that is not in the visited set, so the recursion of
`_extract_zip_recursive` descends forever instead of terminating. -/
theorem selfReferencing_zip_extraction_diverges :
    extractionExhaustsAllFuel quineContent 0 ["a.zip"] ["out"] := by
  intro fuel
  exact quine_extract_noFuel fuel ["a.zip"] ["out"] []
    (by simp) (by simp) (by simp)

/-- C2 (amended): an archive whose resolved path is already in the visited
set is not re-extracted — the call returns success immediately and
extracts nothing — and an archive with finitely nested contents is
extracted exactly once per contained archive; termination, however, is
not guaranteed for an archive containing a copy of itself. -/
theorem extractZipRec_visited_not_reextracted
    (content : Nat → List Nat) (fuel a : Nat) (p d : List String)
    (proc : List (List String)) (h : p ∈ proc) :
    extractZipRec content fuel a p d proc = some []
    ∧ extractZipRec oneNestedContent 2 0 ["a.zip"] ["out"] []
      = some [["a.zip"], ["out", "zip0"]] :=
  ⟨by cases fuel <;> simp [extractZipRec, h], by decide⟩

/-- C2 witness: a second extraction request for an already-visited archive
path extracts nothing. -/
theorem extractZipRec_visited_not_reextracted_witness :
    extractZipRec quineContent 7 0 ["x.zip"] ["out"] [["x.zip"]]
      = some [] :=
  (extractZipRec_visited_not_reextracted quineContent 7 0 ["x.zip"] ["out"]
    [["x.zip"]] (by decide)).1

/-! ## C5 / C10 — the retry wrapper `_execute_action` -/

/-- Skipping `k` initial retryable failures costs exactly `k` extra
attempts and leaves the loop at attempt `k` with `k` fewer retries. -/
theorem execLoop_skip (behavior : Nat → RemoteOutcome) :
    ∀ (k r idx : Nat), k ≤ r →
      (∀ i, i < k → retryable (behavior (idx + i)) = true) →
      execLoop behavior idx r
        = ((execLoop behavior (idx + k) (r - k)).1,
           (execLoop behavior (idx + k) (r - k)).2 + k) := by
  intro k
  induction k with
  | zero => intro r idx _ _; simp
  | succ n ih =>
    intro r idx hkr hret
    obtain ⟨r', rfl⟩ : ∃ r', r = r' + 1 := ⟨r - 1, by omega⟩
    have h0 : retryable (behavior idx) = true := by
      simpa using hret 0 (by omega)
    have hstep :
        execLoop behavior idx (r' + 1)
          = ((execLoop behavior (idx + 1) r').1,
             (execLoop behavior (idx + 1) r').2 + 1) := by
      cases hb : behavior idx <;>
        simp [retryable, hb] at h0 ⊢ <;> simp [execLoop, hb]
    rw [hstep, ih r' (idx + 1) (by omega) ?_]
    · have e1 : idx + 1 + n = idx + (n + 1) := by omega
      have e2 : r' - n = r' + 1 - (n + 1) := by omega
      rw [e1, e2, Nat.add_assoc]
    · intro i hi
      have := hret (i + 1) (by omega)
      rwa [show idx + (i + 1) = idx + 1 + i by omega] at this

/-- A `NotFound` outcome ends the loop at once with a `None` result. -/
theorem execLoop_notFound (behavior : Nat → RemoteOutcome) (idx r : Nat)
    (h : behavior idx = .notFound) :
    execLoop behavior idx r = (.noneResult, 1) := by
  cases r <;> simp [execLoop, h]

/-- A `NotAuthorized` outcome is re-raised at once. -/
theorem execLoop_auth (behavior : Nat → RemoteOutcome) (idx r : Nat)
    (h : behavior idx = .notAuthorized) :
    execLoop behavior idx r = (.raisedAuth, 1) := by
  cases r <;> simp [execLoop, h]

/-- A `ValidationError` outcome is re-raised at once. -/
theorem execLoop_validation (behavior : Nat → RemoteOutcome) (idx r : Nat)
    (h : behavior idx = .validationFailure) :
    execLoop behavior idx r = (.raisedValidation, 1) := by
  cases r <;> simp [execLoop, h]

/-- A success returns its value at once. -/
theorem execLoop_success (behavior : Nat → RemoteOutcome) (idx r v : Nat)
    (h : behavior idx = .success v) :
    execLoop behavior idx r = (.value v, 1) := by
  cases r <;> simp [execLoop, h]

/-- C5: `_execute_action` raises an authorization or validation failure on
the attempt where it occurs, with no further retry; when every attempt
fails retryably it performs exactly `retries + 1` attempts and raises the
last error; and a success after transient failures is returned at once. -/
theorem executeAction_retry_policy :
    (∀ (behavior : Nat → RemoteOutcome) (retries k : Nat), k ≤ retries →
      (∀ i, i < k → retryable (behavior i) = true) →
      behavior k = .notAuthorized →
      executeAction behavior retries = (.raisedAuth, k + 1))
    ∧ (∀ (behavior : Nat → RemoteOutcome) (retries k : Nat), k ≤ retries →
        (∀ i, i < k → retryable (behavior i) = true) →
        behavior k = .validationFailure →
        executeAction behavior retries = (.raisedValidation, k + 1))
    ∧ (∀ (behavior : Nat → RemoteOutcome) (retries : Nat),
        (∀ i, i ≤ retries → retryable (behavior i) = true) →
        executeAction behavior retries
          = (raiseOf (behavior retries), retries + 1))
    ∧ (∀ (behavior : Nat → RemoteOutcome) (retries k v : Nat), k ≤ retries →
        (∀ i, i < k → retryable (behavior i) = true) →
        behavior k = .success v →
        executeAction behavior retries = (.value v, k + 1)) := by
  refine ⟨?_, ?_, ?_, ?_⟩
  · intro behavior retries k hk hret hb
    rw [executeAction, execLoop_skip behavior k retries 0 hk (by simpa using hret),
      Nat.zero_add, execLoop_auth behavior k (retries - k) hb]
    exact Prod.ext rfl (by omega)
  · intro behavior retries k hk hret hb
    rw [executeAction, execLoop_skip behavior k retries 0 hk (by simpa using hret),
      Nat.zero_add, execLoop_validation behavior k (retries - k) hb]
    exact Prod.ext rfl (by omega)
  · intro behavior retries hret
    rw [executeAction,
      execLoop_skip behavior retries retries 0 (le_refl _)
        (fun i hi => by simpa using hret i (by omega)),
      Nat.zero_add, Nat.sub_self]
    have hlast := hret retries (le_refl _)
    cases hb : behavior retries <;>
      simp [retryable, hb] at hlast ⊢ <;>
      (try rw [execLoop, hb]) <;>
      exact ⟨rfl, by simpa using Nat.add_comm 1 retries⟩
  · intro behavior retries k v hk hret hb
    rw [executeAction, execLoop_skip behavior k retries 0 hk (by simpa using hret),
      Nat.zero_add, execLoop_success behavior k (retries - k) v hb]
    exact Prod.ext rfl (by omega)

/-- C5 witness: an authorization failure on the first attempt is raised
after exactly one call even with a retry budget, and a behavior failing
every attempt with `CKANAPIError` uses all four attempts and raises the
API error. -/
theorem executeAction_retry_policy_witness :
    executeAction (fun _ => RemoteOutcome.notAuthorized) 3
      = (.raisedAuth, 1)
    ∧ executeAction (fun _ => RemoteOutcome.apiError) 3 = (.raisedApi, 4) :=
  ⟨executeAction_retry_policy.1 (fun _ => RemoteOutcome.notAuthorized) 3 0
      (by decide) (by decide) rfl,
   executeAction_retry_policy.2.2.1 (fun _ => RemoteOutcome.apiError) 3
      (fun i _ => rfl)⟩

/-- C10: a `NotFound` response makes `_execute_action` return `None` on
the attempt where it occurs — it is neither retried nor raised. -/
theorem executeAction_notFound_immediate
    (behavior : Nat → RemoteOutcome) (retries k : Nat) (hk : k ≤ retries)
    (hret : ∀ i, i < k → retryable (behavior i) = true)
    (hnf : behavior k = .notFound) :
    executeAction behavior retries = (.noneResult, k + 1) := by
  rw [executeAction, execLoop_skip behavior k retries 0 hk (by simpa using hret),
    Nat.zero_add, execLoop_notFound behavior k (retries - k) hnf]
  exact Prod.ext rfl (by omega)

/-- C10 witness: two transient API errors followed by a `NotFound` yield
`None` after exactly three calls, despite retries remaining. -/
theorem executeAction_notFound_immediate_witness :
    executeAction (fun i => if i < 2 then .apiError else .notFound) 5
      = (.noneResult, 3) :=
  executeAction_notFound_immediate
    (fun i => if i < 2 then .apiError else .notFound) 5 2
    (by decide) (by decide) (by decide)

/-! ## C3 — resource upsert decision on a hash match -/

/-- C3: when the resource exists remotely and the local hash equals the
stored remote hash, `upsert_resource` is a no-op returning the existing
record unchanged if every non-internal payload field matches the remote
value, and performs an update call as soon as one such field differs. -/
theorem upsertResource_hash_match_policy
    (res : RemoteResource) (h : String) (payload : List (String × String))
    (callResult : Option RemoteResource)
    (hh : List.lookup "hash" res.fields = some h) (hne : h ≠ "") :
    ((∀ kv ∈ payload, isInternalKey kv.1 = false →
        List.lookup kv.1 res.fields = some kv.2) →
      upsertResource (some res) (some h) payload callResult
        = (.noop, some res))
    ∧ ((∃ kv ∈ payload, isInternalKey kv.1 = false
          ∧ List.lookup kv.1 res.fields ≠ some kv.2) →
      upsertResource (some res) (some h) payload callResult
        = (.update, callResult)) := by
  have hneed : resourceNeedsUpdate (some res) (some h) payload
      = payload.any (fun kv => !(isInternalKey kv.1)
          && !(List.lookup kv.1 res.fields == some kv.2)) := by
    simp [resourceNeedsUpdate, truthyOpt, hne, hh]
  constructor
  · intro hall
    have hany : payload.any (fun kv => !(isInternalKey kv.1)
        && !(List.lookup kv.1 res.fields == some kv.2)) = false := by
      rw [List.any_eq_false]
      intro kv hkv
      cases hik : isInternalKey kv.1 with
      | true => simp [hik]
      | false => simp [hik, hall kv hkv hik]
    simp [upsertResource, hneed, hany]
  · intro hdiff
    obtain ⟨kv, hkv, hik, hv⟩ := hdiff
    have hany : payload.any (fun kv => !(isInternalKey kv.1)
        && !(List.lookup kv.1 res.fields == some kv.2)) = true := by
      rw [List.any_eq_true]
      exact ⟨kv, hkv, by simp [hik, hv]⟩
    simp [upsertResource, hneed, hany]

/-- C3 witness: with a matching hash, identical payload fields give a
no-op returning the stored record; a differing `name` field triggers the
update call. -/
theorem upsertResource_hash_match_policy_witness :
    upsertResource (some exampleRres) (some "abc") [("name", "file1.pdf")]
        none
      = (.noop, some exampleRres)
    ∧ upsertResource (some exampleRres) (some "abc") [("name", "other.pdf")]
        none
      = (.update, none) :=
  ⟨(upsertResource_hash_match_policy exampleRres "abc" [("name", "file1.pdf")]
      none (by decide) (by decide)).1 (by decide),
   (upsertResource_hash_match_policy exampleRres "abc" [("name", "other.pdf")]
      none (by decide) (by decide)).2
     ⟨("name", "other.pdf"), by decide, by decide, by decide⟩⟩

/-! ## C4 — dataset ownership conflict -/

/-- C4: when `package_show` finds the slug under an owning organization
different from the expected non-empty `orgId`, `get_or_create_dataset`
performs no remote mutation and returns unresolved. -/
theorem getOrCreateDataset_org_mismatch_unresolved
    (ds : RemoteDataset) (o : String) (hasApiKey : Bool)
    (updateResult createResult : Option String)
    (ho : o ≠ "") (hm : ds.ownerOrg ≠ some o) :
    getOrCreateDataset (some ds) (some o) hasApiKey updateResult createResult
      = (none, []) := by
  simp [getOrCreateDataset, truthyOpt, ho, hm]

/-- C4 witness: a dataset owned by `org-1` resolved against expected
organization `org-2` is left untouched and unresolved. -/
theorem getOrCreateDataset_org_mismatch_unresolved_witness :
    getOrCreateDataset (some exampleRds) (some "org-2") true
        (some "ds-1") (some "ds-new")
      = (none, []) :=
  getOrCreateDataset_org_mismatch_unresolved exampleRds "org-2" true
    (some "ds-1") (some "ds-new") (by decide) (by decide)

/-! ## C6 — second-run behavior of the full synchronization -/

/-- A successful association-list lookup exhibits a member. -/
theorem lookup_mem_of_eq_some {α β : Type} [BEq α] [LawfulBEq α]
    {l : List (α × β)} {k : α} {v : β} (h : List.lookup k l = some v) :
    (k, v) ∈ l := by
  induction l with
  | nil => simp at h
  | cons a es ih =>
    obtain ⟨k', v'⟩ := a
    rw [List.lookup_cons] at h
    cases hk : (k == k') with
    | true =>
      rw [hk] at h
      obtain rfl : v' = v := by simpa using h
      obtain rfl : k = k' := by simpa using hk
      exact List.mem_cons_self _ _
    | false =>
      rw [hk] at h
      exact List.mem_cons_of_mem _ (ih h)

/-- The zero counter qualifies. -/
theorem onlyDsUpdates_zero : onlyDsUpdates Calls.zero :=
  ⟨rfl, rfl, rfl, rfl⟩

/-- `onlyDsUpdates` is closed under summing counters. -/
theorem onlyDsUpdates_add {a b : Calls} (ha : onlyDsUpdates a)
    (hb : onlyDsUpdates b) : onlyDsUpdates (Calls.add a b) := by
  obtain ⟨a1, a2, a3, a4⟩ := ha
  obtain ⟨b1, b2, b3, b4⟩ := hb
  exact ⟨by simp [Calls.add, a1, b1], by simp [Calls.add, a2, b2],
    by simp [Calls.add, a3, b3], by simp [Calls.add, a4, b4]⟩

/-- Cache consistency only reads the organization and dataset caches. -/
theorem cachesConsistent_congr {remote : Remote} {st st' : Caches}
    (ho : st'.orgCache = st.orgCache) (hd : st'.dsCache = st.dsCache)
    (h : cachesConsistent remote st) : cachesConsistent remote st' := by
  constructor
  · intro n oid hmem
    exact h.1 n oid (ho ▸ hmem)
  · intro s did hmem
    exact h.2 s did (hd ▸ hmem)

/-- Resolving an organization that already exists remotely performs no
create call, keeps the caches consistent, and leaves the dataset cache and
processed-path set untouched. -/
theorem ensureOrganization_spec (remote : Remote) (st : Caches) (o : String)
    (hex : (List.lookup o remote.orgs).isSome)
    (hst : cachesConsistent remote st) :
    (ensureOrganization remote st o).2.2 = Calls.zero
    ∧ cachesConsistent remote (ensureOrganization remote st o).2.1
    ∧ (ensureOrganization remote st o).2.1.processedPaths
      = st.processedPaths := by
  cases hc : List.lookup o st.orgCache with
  | some cached =>
    have he : ensureOrganization remote st o = (cached, st, Calls.zero) := by
      simp [ensureOrganization, hc]
    rw [he]
    exact ⟨rfl, hst, rfl⟩
  | none =>
    cases hr : List.lookup o remote.orgs with
    | none => rw [hr] at hex; simp at hex
    | some oid =>
      have he : ensureOrganization remote st o
          = (some oid, { st with orgCache := (o, some oid) :: st.orgCache },
             Calls.zero) := by
        simp [ensureOrganization, hc, hr]
      rw [he]
      refine ⟨rfl, ⟨?_, hst.2⟩, rfl⟩
      intro n oid' hmem
      rcases List.mem_cons.mp hmem with heq | hmem'
      · obtain ⟨rfl, h2⟩ : n = o ∧ some oid' = some oid := by
          simpa [Prod.ext_iff] using heq
        obtain rfl : oid' = oid := by simpa using h2
        exact hr
      · exact hst.1 n oid' hmem'

/-- Resolving a dataset slug that already exists remotely performs at most
a dataset update (never a create), keeps the caches consistent, leaves
the processed-path set untouched, and resolves only to the remote
dataset's id. -/
theorem ensureDataset_spec (remote : Remote) (st : Caches) (slug : String)
    (orgId : Option String)
    (hex : (List.lookup slug remote.datasets).isSome)
    (hst : cachesConsistent remote st) :
    onlyDsUpdates (ensureDataset remote st slug orgId).2.2
    ∧ cachesConsistent remote (ensureDataset remote st slug orgId).2.1
    ∧ (ensureDataset remote st slug orgId).2.1.processedPaths
      = st.processedPaths
    ∧ (∀ did, (ensureDataset remote st slug orgId).1 = some did →
        ∃ ds, List.lookup slug remote.datasets = some ds ∧ ds.dsId = did) := by
  cases hc : List.lookup slug st.dsCache with
  | some cached =>
    have he : ensureDataset remote st slug orgId = (cached, st, Calls.zero) := by
      simp [ensureDataset, hc]
    rw [he]
    refine ⟨onlyDsUpdates_zero, hst, rfl, ?_⟩
    intro did hdid
    exact hst.2 slug did (lookup_mem_of_eq_some (hdid ▸ hc))
  | none =>
    cases hd : List.lookup slug remote.datasets with
    | none => rw [hd] at hex; simp at hex
    | some ds =>
      by_cases hcond : (truthyOpt orgId && !(ds.ownerOrg == orgId)) = true
      · have he : ensureDataset remote st slug orgId
            = (none, { st with dsCache := (slug, none) :: st.dsCache },
               Calls.zero) := by
          simp [ensureDataset, hc, hd, hcond]
        rw [he]
        refine ⟨onlyDsUpdates_zero, ⟨hst.1, ?_⟩, rfl, ?_⟩
        · intro s did hmem
          rcases List.mem_cons.mp hmem with heq | hmem'
          · exact absurd heq (by simp [Prod.ext_iff])
          · exact hst.2 s did hmem'
        · intro did h
          cases h
      · have he : ensureDataset remote st slug orgId
            = (some ds.dsId,
               { st with dsCache := (slug, some ds.dsId) :: st.dsCache },
               { Calls.zero with dsUpdates := 1 }) := by
          simp [ensureDataset, hc, hd, hcond]
        rw [he]
        refine ⟨⟨rfl, rfl, rfl, rfl⟩, ⟨hst.1, ?_⟩, rfl, ?_⟩
        · intro s did hmem
          rcases List.mem_cons.mp hmem with heq | hmem'
          · obtain ⟨rfl, h2⟩ : s = slug ∧ some did = some ds.dsId := by
              simpa [Prod.ext_iff] using heq
            obtain rfl : did = ds.dsId := by simpa using h2
            exact ⟨ds, hd, rfl⟩
          · exact hst.2 s did hmem'
        · intro did hdid
          obtain rfl : ds.dsId = did := by simpa using hdid
          exact ⟨ds, rfl, rfl⟩

/-- Upserting a resource that already exists remotely with matching hash
and fields performs no remote call and changes only the processed-path
set. -/
theorem upsertResourceRun_spec (remote : Remote) (st : Caches)
    (dsId : String) (it : Item)
    (hres : ∃ res,
      List.lookup (dsId, it.resName) remote.resources = some res
      ∧ resourceNeedsUpdate (some res) it.fileHash it.resPayload = false) :
    (upsertResourceRun remote st dsId it).2 = Calls.zero
    ∧ (upsertResourceRun remote st dsId it).1.orgCache = st.orgCache
    ∧ (upsertResourceRun remote st dsId it).1.dsCache = st.dsCache := by
  obtain ⟨res, hlook, hnu⟩ := hres
  by_cases hp : it.path ∈ st.processedPaths
  · simp [upsertResourceRun, hp]
  · simp [upsertResourceRun, hp, hlook, hnu]

/-- The organization leg of one loop iteration performs no call when the
named organization exists remotely. -/
theorem resolveOrgStep_spec (remote : Remote) (st : Caches) (it : Item)
    (hit : ∀ o, it.orgName = some o → o ≠ "" →
      (List.lookup o remote.orgs).isSome)
    (hst : cachesConsistent remote st) :
    (resolveOrgStep remote st it).2.2 = Calls.zero
    ∧ cachesConsistent remote (resolveOrgStep remote st it).2.1
    ∧ (resolveOrgStep remote st it).2.1.processedPaths
      = st.processedPaths := by
  cases ho : it.orgName with
  | none =>
    have he : resolveOrgStep remote st it = (none, st, Calls.zero) := by
      simp [resolveOrgStep, ho]
    rw [he]
    exact ⟨rfl, hst, rfl⟩
  | some o =>
    by_cases hnil : o = ""
    · have he : resolveOrgStep remote st it = (none, st, Calls.zero) := by
        simp [resolveOrgStep, ho, hnil]
      rw [he]
      exact ⟨rfl, hst, rfl⟩
    · have he : resolveOrgStep remote st it = ensureOrganization remote st o := by
        simp [resolveOrgStep, ho, hnil]
      rw [he]
      exact ensureOrganization_spec remote st o (hit o ho hnil) hst

/-- The resource leg of one loop iteration performs no call when any
resolved dataset's resource already matches. -/
theorem resourceStep_spec (remote : Remote) (st : Caches)
    (dsRes : Option String) (it : Item)
    (hok : ∀ dsId, dsRes = some dsId → it.isFile = true →
      ∃ res, List.lookup (dsId, it.resName) remote.resources = some res
        ∧ resourceNeedsUpdate (some res) it.fileHash it.resPayload = false) :
    (resourceStep remote st dsRes it).2 = Calls.zero
    ∧ (resourceStep remote st dsRes it).1.orgCache = st.orgCache
    ∧ (resourceStep remote st dsRes it).1.dsCache = st.dsCache := by
  cases dsRes with
  | none => simp [resourceStep]
  | some dsId =>
    cases hf : it.isFile with
    | false => simp [resourceStep, hf]
    | true =>
      have h := upsertResourceRun_spec remote st dsId it (hok dsId rfl hf)
      simpa [resourceStep, hf] using h

/-- One loop iteration over an unchanged item makes no create call and no
resource-update call, and preserves cache consistency. -/
theorem processItem_spec (remote : Remote) (st : Caches) (it : Item)
    (hit : itemUnchanged remote it) (hst : cachesConsistent remote st) :
    onlyDsUpdates (processItem remote st it).2
    ∧ cachesConsistent remote (processItem remote st it).1 := by
  obtain ⟨h1, h2, h3⟩ := hit
  obtain ⟨hoC, hoCons, hoPaths⟩ := resolveOrgStep_spec remote st it h1 hst
  obtain ⟨hdC, hdCons, hdPaths, hdId⟩ :=
    ensureDataset_spec remote (resolveOrgStep remote st it).2.1 it.dsSlug
      (resolveOrgStep remote st it).1 h2 hoCons
  have hok : ∀ dsId,
      (ensureDataset remote (resolveOrgStep remote st it).2.1 it.dsSlug
        (resolveOrgStep remote st it).1).1 = some dsId →
      it.isFile = true →
      ∃ res, List.lookup (dsId, it.resName) remote.resources = some res
        ∧ resourceNeedsUpdate (some res) it.fileHash it.resPayload = false := by
    intro dsId hd hf
    obtain ⟨ds, hds, rfl⟩ := hdId dsId hd
    exact h3 ds hds hf
  obtain ⟨hrC, hrO, hrD⟩ :=
    resourceStep_spec remote
      (ensureDataset remote (resolveOrgStep remote st it).2.1 it.dsSlug
        (resolveOrgStep remote st it).1).2.1
      (ensureDataset remote (resolveOrgStep remote st it).2.1 it.dsSlug
        (resolveOrgStep remote st it).1).1 it hok
  constructor
  · show onlyDsUpdates
      (Calls.add
        (Calls.add (resolveOrgStep remote st it).2.2
          (ensureDataset remote (resolveOrgStep remote st it).2.1 it.dsSlug
            (resolveOrgStep remote st it).1).2.2)
        (resourceStep remote
          (ensureDataset remote (resolveOrgStep remote st it).2.1 it.dsSlug
            (resolveOrgStep remote st it).1).2.1
          (ensureDataset remote (resolveOrgStep remote st it).2.1 it.dsSlug
            (resolveOrgStep remote st it).1).1 it).2)
    rw [hoC, hrC]
    exact onlyDsUpdates_add (onlyDsUpdates_add onlyDsUpdates_zero hdC)
      onlyDsUpdates_zero
  · show cachesConsistent remote
      (resourceStep remote
        (ensureDataset remote (resolveOrgStep remote st it).2.1 it.dsSlug
          (resolveOrgStep remote st it).1).2.1
        (ensureDataset remote (resolveOrgStep remote st it).2.1 it.dsSlug
          (resolveOrgStep remote st it).1).1 it).1
    exact cachesConsistent_congr hrO hrD hdCons

/-- Folding the loop over unchanged items accumulates only dataset
updates. -/
theorem processList_go (remote : Remote) :
    ∀ (items : List Item) (st : Caches) (acc : Calls),
      (∀ it ∈ items, itemUnchanged remote it) →
      cachesConsistent remote st → onlyDsUpdates acc →
      onlyDsUpdates
        (items.foldl
          (fun acc it =>
            let step := processItem remote acc.1 it
            (step.1, Calls.add acc.2 step.2))
          (st, acc)).2 := by
  intro items
  induction items with
  | nil =>
    intro st acc _ _ hacc
    simpa using hacc
  | cons it rest ih =>
    intro st acc hall hst hacc
    obtain ⟨hcalls, hcons⟩ :=
      processItem_spec remote st it (hall it (List.mem_cons_self it rest)) hst
    simp only [List.foldl_cons]
    exact ih (processItem remote st it).1
      (Calls.add acc (processItem remote st it).2)
      (fun x hx => hall x (List.mem_cons_of_mem _ hx)) hcons
      (onlyDsUpdates_add hacc hcalls)

/-- `exampleItem` really is unchanged relative to `exampleRemote`. -/
theorem exampleItem_unchanged : itemUnchanged exampleRemote exampleItem := by
  refine ⟨?_, by decide, ?_⟩
  · intro o ho _
    obtain rfl : "reports-org" = o := by simpa [exampleItem] using ho
    decide
  · intro ds hds hf
    obtain rfl : exampleRds = ds := by
      simpa [exampleRemote, exampleItem, List.lookup] using hds
    exact ⟨exampleRres, by decide, by decide⟩

/-- C6 counterexample: over an unchanged tree and unchanged remote state,
the second run still performs a dataset update call —
`get_or_create_dataset` invokes `package_update` whenever the dataset
exists with a matching organization — so the run's create/update call
count is not zero. -/
theorem second_run_dataset_update_call :
    itemUnchanged exampleRemote exampleItem
    ∧ (processList exampleRemote [exampleItem]).2.dsUpdates = 1
    ∧ (processList exampleRemote [exampleItem]).2 ≠ Calls.zero :=
  ⟨exampleItem_unchanged, by decide, by decide⟩

/-- C6 (amended): a second run over an unchanged source tree and
unchanged remote catalog performs zero organization/dataset/resource
create calls and zero resource update calls; only dataset update calls
remain, because an existing matching dataset is updated unconditionally
every run. -/
theorem processList_unchanged_no_creates (remote : Remote)
    (items : List Item) (h : ∀ it ∈ items, itemUnchanged remote it) :
    onlyDsUpdates (processList remote items).2 := by
  refine processList_go remote items ⟨[], [], []⟩ Calls.zero h ⟨?_, ?_⟩
    onlyDsUpdates_zero
  · intro n oid hmem
    simp at hmem
  · intro s did hmem
    simp at hmem

/-- C6 witness: the concrete unchanged run makes no create call and no
resource update call. -/
theorem processList_unchanged_no_creates_witness :
    onlyDsUpdates (processList exampleRemote [exampleItem]).2 :=
  processList_unchanged_no_creates exampleRemote [exampleItem]
    (fun it hit => by
      rw [List.mem_singleton] at hit
      rw [hit]
      exact exampleItem_unchanged)

end MetaData
